import Mathlib

/-!
Verification development for the `sales_map_gen` repository
(`backend/map_generator.py` and `backend/app.py`).

The registry `self.regions` is a Python dict from region name to a JSON-like
object; parsed JSON documents share the same value space.  We embed JSON
values as `JValue`, dicts as insertion-ordered association lists (Python
dicts preserve insertion order, and assignment to an existing key keeps its
position), and each Python routine the claims touch as a Lean function over
these.  Floating-point area arithmetic is embedded over `ℚ`, with `Option`
marking the non-finite result of a zero-denominator division.
-/

namespace SalesMap

/-- JSON-like values as produced by `json.load` / built by `add_region`.
`jbool` is kept separate from `jint`, but note that Python `bool` is a
subclass of `int`, so `isinstance(x, int)` accepts booleans (see
`isIntInstance`). JSON numbers with a fractional part become `jfloat`. -/
inductive JValue where
  | jnull
  | jbool (b : Bool)
  | jint (n : Int)
  | jfloat (q : ℚ)
  | jstr (s : String)
  | jlist (xs : List JValue)
  | jobj (fields : List (String × JValue))

open JValue

/-- A Python dict of JSON values: insertion-ordered key/value pairs.
`RegionalMapGenerator.regions` and every parsed JSON object have this shape. -/
abbrev Registry := List (String × JValue)

/-- `v[k]` for a JSON object: first binding of key `k`.  `none` models the
exception Python raises (`KeyError` for a dict missing `k`, `TypeError` for
string/list subscripts with a string key, non-subscriptable scalars). -/
def getItem (v : JValue) (k : String) : Option JValue :=
  match v with
  | jobj fs => fs.lookup k
  | _ => none

/-- `chars` of a string (Lean strings are lists of characters underneath). -/
def chars (s : String) : List Char := s.data

/-- Python `pat in s` on strings: substring test. -/
def strContains (s pat : String) : Bool :=
  (chars s).tails.any (fun t => (chars pat).isPrefixOf t)

/-- Python `k in xs` for a string `k` and a list `xs`: membership via `==`.
A Python string never equals a non-string, so only `jstr` elements match. -/
def listHasStr (k : String) (xs : List JValue) : Bool :=
  xs.any (fun v => match v with | jstr s => s == k | _ => false)

/-- Python `k in v` for a string key `k`.  Key membership on dicts, substring
test on strings, element membership on lists (string/non-string comparisons
are unequal in Python, so only `jstr k` elements match); `none` models the
`TypeError` raised for non-container values. -/
def hasMember (k : String) (v : JValue) : Option Bool :=
  match v with
  | jobj fs => some (fs.any (fun f => f.1 == k))
  | jstr s => some (strContains s k)
  | jlist xs => some (listHasStr k xs)
  | _ => none

/-- Python `isinstance(v, bool)` is irrelevant here; this is
`isinstance(v, int)`, which is `True` for `bool` values as well because
`bool` is a subclass of `int`. -/
def isIntInstance : JValue → Bool
  | jint _ => true
  | jbool _ => true
  | _ => false

/-- Whether a JSON value is an object (a Python dict after parsing). -/
def isObj : JValue → Bool
  | jobj _ => true
  | _ => false

/-! ## Region Registry: `add_region` (map_generator.py lines 119-126) -/

/-- The dict literal `add_region` stores under the region's name. -/
def mkRegionData (territories : List String) (color : String)
    (salesRep : String) (salesNumber : Int) : JValue :=
  jobj [("territories", jlist (territories.map jstr)),
        ("color", jstr color),
        ("sales_rep", jstr salesRep),
        ("sales_number", jint salesNumber)]

/-- Python dict assignment `d[name] = v`: replaces the value in place when
the key exists (keeping its position in iteration order), appends otherwise. -/
def dictInsert (reg : Registry) (name : String) (v : JValue) : Registry :=
  match reg with
  | [] => [(name, v)]
  | (k, w) :: rest =>
    if k == name then (k, v) :: rest else (k, w) :: dictInsert rest name v

/-- `RegionalMapGenerator.add_region`: `self.regions[name] = {...}`. -/
def addRegion (reg : Registry) (name : String) (territories : List String)
    (color : String) (salesRep : String) (salesNumber : Int) : Registry :=
  dictInsert reg name (mkRegionData territories color salesRep salesNumber)

/-! ## Color Resolver (`generate_map` lines 227-232; the identical loop in
`_create_inset_map` lines 162-167) -/

/-- The default fill used when no region claims a territory. -/
def defaultGray : JValue := jstr "#2C2C2C"

/-- The first-match color loop of `generate_map`:
`for region_data in self.regions.values(): if name in region_data['territories']: ...`.
`none` models an exception escaping the loop body (missing `'territories'`
or `'color'` key, or `in` applied to a non-container). -/
def resolveColor (reg : Registry) (name : String) : Option JValue :=
  match reg with
  | [] => some defaultGray
  | (_, d) :: rest =>
    match getItem d "territories" with
    | none => none
    | some ts =>
      match hasMember name ts with
      | none => none
      | some true => getItem d "color"
      | some false => resolveColor rest name

/-- A region object claims territory `t` when its `'territories'` field is a
list containing the string `t` (the shape every reachable registry has). -/
def claimsTerritory (d : JValue) (t : String) : Bool :=
  match getItem d "territories" with
  | some (jlist xs) => listHasStr t xs
  | _ => false

/-- Reachable registry entries: `'territories'` is a list and `'color'` is
present.  `add_region` always builds this shape, and `import_regions` only
installs documents it has validated to this shape. -/
def wfRegion (d : JValue) : Bool :=
  (match getItem d "territories" with
   | some (jlist _) => true
   | _ => false) &&
  (getItem d "color").isSome

/-! ## Geometry Store filtering (`_load_shapefile` lines 83-117) -/

/-- An administrative-boundary record: the two attributes the filter reads
(`data['admin']`, `data['name']`). -/
structure AdminRec where
  admin : String
  name : String
deriving DecidableEq, Repr

/-- A lake record: the attribute the filter reads. -/
structure LakeRec where
  name : String
deriving DecidableEq, Repr

/-- `excluded_provinces` from `_load_shapefile`. -/
def excludedProvinces : List String :=
  ["Nunavut", "Northwest Territories", "Yukon",
   "New Brunswick", "Prince Edward Island", "Nova Scotia"]

/-- `great_lakes` from `_load_shapefile`. -/
def greatLakes : List String :=
  ["Lake Superior", "Lake Michigan", "Lake Huron", "Lake Erie", "Lake Ontario"]

/-- `us_mask`: `data['admin'] == 'United States of America'`. -/
def usMask (r : AdminRec) : Bool := r.admin == "United States of America"

/-- `canada_mask`: `data['admin'] == 'Canada'`. -/
def canadaMask (r : AdminRec) : Bool := r.admin == "Canada"

/-- `not_excluded_mask`: `~data['name'].isin(excluded_provinces)`. -/
def notExcludedMask (r : AdminRec) : Bool := !(excludedProvinces.contains r.name)

/-- `data[(us_mask | canada_mask) & not_excluded_mask]`. -/
def filterAdmin (rs : List AdminRec) : List AdminRec :=
  rs.filter (fun r => (usMask r || canadaMask r) && notExcludedMask r)

/-- `data[data['name'].isin(great_lakes)]`. -/
def filterLakes (ls : List LakeRec) : List LakeRec :=
  ls.filter (fun l => greatLakes.contains l.name)

/-! ## JSON import of the registry (`import_regions`, map_generator.py
lines 366-389) and export (lines 353-364) -/

/-- `required_fields` in `import_regions`. -/
def requiredFields : List String :=
  ["territories", "color", "sales_rep", "sales_number"]

/-- The validation body for one region of the imported document, returning
the message of the exception it raises, if any.  Checks run in source order:
`all(field in data for field in required_fields)`, then
`isinstance(data['territories'], list)`, then
`isinstance(data['sales_number'], int)`.  A non-container region value makes
the first `in` raise `TypeError`; a string or list region value passes the
`in` checks only vacuously-weirdly (substring / element membership) and then
raises `TypeError` at the string subscript `data['territories']`. -/
def regionError (name : String) (v : JValue) : Option String :=
  match requiredFields.mapM (fun f => hasMember f v) with
  | none => some "argument of type is not iterable"
  | some bs =>
    if !bs.all (fun b => b) then
      some ("Region " ++ name ++ " is missing required fields")
    else
      match v with
      | jobj _ =>
        match getItem v "territories" with
        | some (jlist _) =>
          match getItem v "sales_number" with
          | some sn =>
            if isIntInstance sn then none
            else some ("Region " ++ name ++ " sales number must be an integer")
          | none => some "KeyError"
        | some _ => some ("Region " ++ name ++ " territories must be a list")
        | none => some "KeyError"
      | _ => some "string indices must be integers"

/-- `import_regions` applied to an already-parsed top-level object `doc`:
iterate the document's regions in order; the first raised validation error is
reported and the registry is left untouched; with no error the document
replaces the whole registry (`self.regions = regions`).  Result: the new
registry paired with the reported error message, if any. -/
def importRegions (cur : Registry) (doc : Registry) : Registry × Option String :=
  match doc.findSome? (fun e => regionError e.1 e.2) with
  | some msg => (cur, some msg)
  | none => (doc, none)

/-- `export_regions`: `json.dump(self.regions, f)` writes exactly the
registry object; string-keyed JSON data of this shape parses back to itself,
so the file's parsed content is the registry as a JSON object. -/
def exportRegions (reg : Registry) : JValue := jobj reg

/-- `import_regions` from a parsed file content of arbitrary JSON shape:
`regions.items()` raises `AttributeError` unless the top level is an object. -/
def importRegionsJson (cur : Registry) (content : JValue) : Registry × Option String :=
  match content with
  | jobj doc => importRegions cur doc
  | _ => (cur, some "object has no attribute items")

/-- The claim's description of a malformed region (on a region object):
lacks one of the four required fields, or has a non-list `'territories'`,
or has a non-integer `'sales_number'`. -/
def badRegionSpec (d : JValue) : Bool :=
  !(requiredFields.all (fun f => (getItem d f).isSome)) ||
  (match getItem d "territories" with
   | some (jlist _) => false
   | _ => true) ||
  (match getItem d "sales_number" with
   | some sn => !isIntInstance sn
   | none => true)

/-! ## Abbreviation font sizing (`_add_abbreviations` lines 128-140)

`size_factor = (area - min_area) / (max_area - min_area)` and
`font_size = 6 + (size_factor * 6)`, with no guard on the denominator.
Areas are embedded as rationals; `none` stands for the non-finite value
(NaN) the float division produces when `max_area == min_area`. -/

/-- `size_factor`, `none` when the denominator is zero. -/
def sizeFactor (area minArea maxArea : ℚ) : Option ℚ :=
  if maxArea - minArea = 0 then none
  else some ((area - minArea) / (maxArea - minArea))

/-- `font_size = 6 + (size_factor * 6)`: scale between 6 and 12. -/
def fontSize (area minArea maxArea : ℚ) : Option ℚ :=
  (sizeFactor area minArea maxArea).map (fun f => 6 + f * 6)

/-! ## Inset transform (`_create_inset_map` lines 158-183)

Geometries are embedded as finite lists of points with rational coordinates;
`shapely.affinity.scale` / `translate` act pointwise on coordinates, the
centroid is the coordinate mean, and the bounding box comes from coordinate
minima/maxima (for a point set, shapely's centroid is exactly the mean). -/

/-- A point in the projected plane. -/
abbrev Point := ℚ × ℚ

/-- Coordinate mean; `geom.centroid` for a point set. -/
def centroid (g : List Point) : Point :=
  ((g.map Prod.fst).sum / g.length, (g.map Prod.snd).sum / g.length)

/-- Smallest x coordinate of a nonempty geometry. -/
def minX : List Point → ℚ
  | [] => 0
  | p :: ps => ps.foldl (fun m q => min m q.1) p.1

/-- Largest x coordinate of a nonempty geometry. -/
def maxX : List Point → ℚ
  | [] => 0
  | p :: ps => ps.foldl (fun m q => max m q.1) p.1

/-- Smallest y coordinate of a nonempty geometry. -/
def minY : List Point → ℚ
  | [] => 0
  | p :: ps => ps.foldl (fun m q => min m q.2) p.2

/-- Largest y coordinate of a nonempty geometry. -/
def maxY : List Point → ℚ
  | [] => 0
  | p :: ps => ps.foldl (fun m q => max m q.2) p.2

/-- `origin='center'` in `shapely.affinity.scale`: the center of the 2D
bounding box (not the centroid). -/
def bboxCenter (g : List Point) : Point :=
  ((minX g + maxX g) / 2, (minY g + maxY g) / 2)

/-- `scale(geom, xfact=s, yfact=s, origin=o)`: each point moves to
`o + s * (p - o)` coordinatewise. -/
def scaleGeom (g : List Point) (s : ℚ) (o : Point) : List Point :=
  g.map (fun p => (o.1 + s * (p.1 - o.1), o.2 + s * (p.2 - o.2)))

/-- `translate(geom, xoff, yoff)`. -/
def translateGeom (g : List Point) (xoff yoff : ℚ) : List Point :=
  g.map (fun p => (p.1 + xoff, p.2 + yoff))

/-- Lines 170-177 of `_create_inset_map`: scale about `origin='center'`,
then translate by `transform['x'] - centroid.x`, `transform['y'] - centroid.y`
where `centroid` is the centroid of the ORIGINAL geometry. -/
def insetTransform (g : List Point) (s x y : ℚ) : List Point :=
  let c := centroid g
  translateGeom (scaleGeom g s (bboxCenter g)) (x - c.1) (y - c.2)

/-! ## Main-map draw loop (`generate_map` lines 224-242)

The loop body (color resolution plus the `GeoSeries.plot` call) sits in a
`try`/`except` that prints and continues.  The plot call's success is an
oracle `draw : String → Bool`; the observable result is the list of
territories actually drawn, with the color each was filled with. -/

/-- `for name, geometry in zip(...): try: resolve color; plot; except: skip`.
A territory is drawn exactly when its color loop raises nothing and its plot
call succeeds; any failure skips just that territory. -/
def plotLoop (draw : String → Bool) (reg : Registry) :
    List String → List (String × JValue)
  | [] => []
  | t :: ts =>
    match resolveColor reg t, draw t with
    | some c, true => (t, c) :: plotLoop draw reg ts
    | _, _ => plotLoop draw reg ts

/-! ## Concrete data used by the witnesses -/

/-- A small registry reachable by two `add_region` calls; both regions claim
`"Texas"`, so insertion order decides its color. -/
def demoRegistry : Registry :=
  [("A", mkRegionData ["Texas", "Ohio"] "#111111" "Alice Smith" 1),
   ("B", mkRegionData ["Texas", "Iowa"] "#222222" "Bob Jones" 2)]

/-- An import document whose single region lacks the `sales_number` field. -/
def demoBadDoc : Registry :=
  [("East", jobj [("territories", jlist [jstr "Virginia"]),
                  ("color", jstr "#FF0000"),
                  ("sales_rep", jstr "Carol")])]

/-- A draw oracle that fails exactly on `"Texas"`. -/
def drawFailTexas : String → Bool := fun u => !(u == "Texas")

/-! ## Theorems -/

/-- **C9.** A loaded administrative boundary is retained iff its country
attribute is "United States of America" or "Canada" and its name is not in
the fixed exclusion list; a loaded lake is retained iff its name is one of
the five Great Lakes. -/
theorem loadShapefile_filter_spec :
    (∀ (rs : List AdminRec) (r : AdminRec),
      r ∈ filterAdmin rs ↔
        r ∈ rs ∧ (r.admin = "United States of America" ∨ r.admin = "Canada") ∧
          r.name ∉ ["Nunavut", "Northwest Territories", "Yukon",
                    "New Brunswick", "Prince Edward Island", "Nova Scotia"]) ∧
    (∀ (ls : List LakeRec) (l : LakeRec),
      l ∈ filterLakes ls ↔
        l ∈ ls ∧ l.name ∈ ["Lake Superior", "Lake Michigan", "Lake Huron",
                           "Lake Erie", "Lake Ontario"]) := by
  constructor
  · intro rs r
    simp [filterAdmin, List.mem_filter, usMask, canadaMask, notExcludedMask,
      excludedProvinces]
  · intro ls l
    simp [filterLakes, List.mem_filter, greatLakes]

/-- **C3.** The spec demands that equal minimum and maximum areas must not
divide by zero and must be treated as scale factor 0 (minimum font size 6).
The code computes `(area - min_area) / (max_area - min_area)` with no guard,
so in the degenerate case the division is `0/0` and the font size is the
non-finite marker, never `6`. -/
theorem fontSize_degenerate_divides_by_zero (area minArea : ℚ) :
    fontSize area minArea minArea = none ∧
    fontSize area minArea minArea ≠ some 6 := by
  refine ⟨?_, ?_⟩ <;> simp [fontSize, sizeFactor]

/-- **C1.** For every well-formed registry state and territory `t`, the fill
color resolved for `t` is the color of the first region in insertion order
whose territory list contains `t`, and the fixed default gray `'#2C2C2C'`
when no region claims `t` (in particular for the empty registry). -/
theorem resolveColor_first_match (reg : Registry) (t : String)
    (hwf : ∀ e ∈ reg, wfRegion e.2 = true) :
    resolveColor reg t =
      match reg.find? (fun e => claimsTerritory e.2 t) with
      | some e => getItem e.2 "color"
      | none => some defaultGray := by
  induction reg with
  | nil => rfl
  | cons hd tl ih =>
    obtain ⟨k, d⟩ := hd
    have hw : wfRegion d = true := hwf (k, d) (by simp)
    have htl : ∀ e ∈ tl, wfRegion e.2 = true := fun e he => hwf e (by simp [he])
    rw [wfRegion, Bool.and_eq_true] at hw
    rcases hts : getItem d "territories" with _ | v
    · rw [hts] at hw; simp at hw
    · rcases v with _ | _ | _ | _ | _ | xs | _ <;> rw [hts] at hw <;>
        simp only [Bool.true_and, Bool.false_and] at hw
      · exact absurd hw.1 (by simp)
      · exact absurd hw.1 (by simp)
      · exact absurd hw.1 (by simp)
      · exact absurd hw.1 (by simp)
      · exact absurd hw.1 (by simp)
      · -- territories is a list
        rcases hcl : listHasStr t xs with _ | _
        · have : claimsTerritory d t = false := by
            simp [claimsTerritory, hts, hcl]
          simp only [resolveColor, hts, hasMember, hcl, List.find?, this,
            Bool.false_eq_true, if_neg]
          exact ih htl
        · have : claimsTerritory d t = true := by
            simp [claimsTerritory, hts, hcl]
          simp [resolveColor, hts, hasMember, hcl, List.find?, this]
      · exact absurd hw.1 (by simp)

/-- Witness for C1: in `demoRegistry` both regions claim `"Texas"`; the first
one wins; an unclaimed territory gets the default gray. -/
theorem resolveColor_first_match_witness :
    resolveColor demoRegistry "Texas" = some (jstr "#111111") ∧
    resolveColor demoRegistry "Nevada" = some defaultGray := by
  have h1 := resolveColor_first_match demoRegistry "Texas" (by decide)
  have h2 := resolveColor_first_match demoRegistry "Nevada" (by decide)
  exact ⟨h1.trans rfl, h2.trans rfl⟩

/-- Entries other than the overwritten key are left untouched by the
replacement map used in `addRegion_overwrite_in_place`. -/
lemma map_replace_of_not_mem (tl : Registry) (n : String) (v : JValue)
    (hn : n ∉ tl.map Prod.fst) :
    tl.map (fun e => if e.1 = n then (n, v) else e) = tl := by
  induction tl with
  | nil => rfl
  | cons hd tl ih =>
    simp only [List.map_cons, List.mem_cons, not_or] at hn
    simp only [List.map_cons]
    rw [if_neg (fun h => hn.1 h.symm), ih hn.2]

/-- **C10.** Calling `add_region` with a name already in the registry
replaces only that region's data, preserving its position in iteration
order: the new registry is the old one with exactly the entry under that
name rewritten, so every region's first-match priority is unchanged. -/
theorem addRegion_overwrite_in_place (reg : Registry) (n : String)
    (ts : List String) (c sr : String) (sn : Int)
    (hmem : n ∈ reg.map Prod.fst) (hnd : (reg.map Prod.fst).Nodup) :
    addRegion reg n ts c sr sn
      = reg.map (fun e => if e.1 = n then (n, mkRegionData ts c sr sn) else e) ∧
    (addRegion reg n ts c sr sn).map Prod.fst = reg.map Prod.fst := by
  have key : addRegion reg n ts c sr sn
      = reg.map (fun e => if e.1 = n then (n, mkRegionData ts c sr sn) else e) := by
    induction reg with
    | nil => simp at hmem
    | cons hd tl ih =>
      obtain ⟨k, v⟩ := hd
      simp only [List.map_cons, List.nodup_cons] at hnd
      by_cases hk : k = n
      · subst hk
        have : addRegion ((k, v) :: tl) k ts c sr sn
            = (k, mkRegionData ts c sr sn) :: tl := by
          simp [addRegion, dictInsert]
        rw [this]
        simp [map_replace_of_not_mem tl k _ hnd.1]
      · have hmem' : n ∈ tl.map Prod.fst := by
          simpa [hk, Ne.symm hk] using hmem
        have step : addRegion ((k, v) :: tl) n ts c sr sn
            = (k, v) :: addRegion tl n ts c sr sn := by
          simp [addRegion, dictInsert, hk]
        rw [step, ih hmem' hnd.2]
        simp [hk]
  refine ⟨key, ?_⟩
  rw [key, List.map_map]
  apply List.map_congr_left
  intro e _
  by_cases he : e.1 = n <;> simp [he, Function.comp]

/-- Witness for C10: overwriting region `"A"` of `demoRegistry` keeps it
first and only changes its data. -/
theorem addRegion_overwrite_in_place_witness :
    addRegion demoRegistry "A" ["Nevada"] "#333333" "Ann Lee" 9
      = [("A", mkRegionData ["Nevada"] "#333333" "Ann Lee" 9),
         ("B", mkRegionData ["Texas", "Iowa"] "#222222" "Bob Jones" 2)] := by
  have h := addRegion_overwrite_in_place demoRegistry "A" ["Nevada"] "#333333"
    "Ann Lee" 9 (by decide) (by decide)
  exact h.1.trans rfl

/-- **C8.** A draw failure on one main-map territory only skips that
territory: nothing is drawn for it, while every other territory whose own
draw succeeds (and whose color resolution raises nothing) is still drawn. -/
theorem plotLoop_failure_isolated (draw : String → Bool) (reg : Registry)
    (ts : List String) (t : String) (hfail : draw t = false) :
    (∀ c, (t, c) ∉ plotLoop draw reg ts) ∧
    (∀ u ∈ ts, draw u = true → ∀ c, resolveColor reg u = some c →
      (u, c) ∈ plotLoop draw reg ts) := by
  induction ts with
  | nil => exact ⟨fun c h => by simp [plotLoop] at h, fun u hu => by simp at hu⟩
  | cons hd tl ih =>
    constructor
    · intro c hc
      rcases hr : resolveColor reg hd with _ | c' <;>
        rcases hdw : draw hd with _ | _ <;>
        simp only [plotLoop, hr, hdw] at hc
      · exact ih.1 c hc
      · exact ih.1 c hc
      · exact ih.1 c hc
      · rcases List.mem_cons.1 hc with hc | hc
        · have h1 : t = hd := congrArg Prod.fst hc
          rw [h1] at hfail
          rw [hfail] at hdw
          exact Bool.false_ne_true hdw
        · exact ih.1 c hc
    · intro u hu hdu c hc
      rcases hu with _ | ⟨_, hu⟩
      · simp [plotLoop, hc, hdu]
      · rcases hr : resolveColor reg hd with _ | c' <;>
          rcases hdw : draw hd with _ | _ <;>
          simp only [plotLoop, hr, hdw]
        · exact ih.2 u hu hdu c hc
        · exact ih.2 u hu hdu c hc
        · exact ih.2 u hu hdu c hc
        · exact List.mem_cons_of_mem _ (ih.2 u hu hdu c hc)

/-- Witness for C8: with a draw oracle failing exactly on `"Texas"`,
`"Texas"` is skipped and `"Ohio"` is still drawn in its resolved color. -/
theorem plotLoop_failure_isolated_witness :
    (∀ c, ("Texas", c) ∉ plotLoop drawFailTexas demoRegistry ["Texas", "Ohio"]) ∧
    ("Ohio", jstr "#111111") ∈ plotLoop drawFailTexas demoRegistry ["Texas", "Ohio"] := by
  have h := plotLoop_failure_isolated drawFailTexas demoRegistry
    ["Texas", "Ohio"] "Texas" rfl
  exact ⟨h.1, h.2 "Ohio" (by simp) rfl (jstr "#111111") rfl⟩

/-- **C4.** With `min_area < max_area` (the non-degenerate case), the
computed abbreviation font size is monotone in area — `area(A) > area(B)`
gives `size(A) ≥ size(B)` — and every computed size lies in `[6, 12]`,
following `size = min_size + (area - min_area)/(max_area - min_area) *
(max_size - min_size)` with `min_size = 6`, `max_size = 12`. -/
theorem fontSize_monotone_bounded (areas : List ℚ) (mA xA a b : ℚ)
    (hm : areas.minimum = (mA : WithTop ℚ))
    (hx : areas.maximum = (xA : WithBot ℚ))
    (hne : mA < xA) (ha : a ∈ areas) (hb : b ∈ areas) (hab : b < a) :
    (∃ fa fb, fontSize a mA xA = some fa ∧ fontSize b mA xA = some fb ∧
      fb ≤ fa) ∧
    (∀ c ∈ areas, ∃ fc, fontSize c mA xA = some fc ∧ 6 ≤ fc ∧ fc ≤ 12) := by
  have hmin : ∀ y ∈ areas, mA ≤ y := (List.minimum_eq_coe_iff.1 hm).2
  have hmax : ∀ y ∈ areas, y ≤ xA := (List.maximum_eq_coe_iff.1 hx).2
  have hd : 0 < xA - mA := by linarith
  have hdne : ¬(xA - mA = 0) := ne_of_gt hd
  have hval : ∀ c, fontSize c mA xA = some (6 + (c - mA) / (xA - mA) * 6) := by
    intro c
    simp [fontSize, sizeFactor, hdne]
  constructor
  · refine ⟨_, _, hval a, hval b, ?_⟩
    have hq : (b - mA) / (xA - mA) ≤ (a - mA) / (xA - mA) :=
      (div_le_div_iff_of_pos_right hd).mpr (by linarith)
    nlinarith [hq]
  · intro c hc
    refine ⟨_, hval c, ?_, ?_⟩
    · have h0 : 0 ≤ (c - mA) / (xA - mA) :=
        div_nonneg (by linarith [hmin c hc]) hd.le
      nlinarith [h0]
    · have h1 : (c - mA) / (xA - mA) ≤ 1 :=
        (div_le_one hd).2 (by linarith [hmax c hc])
      nlinarith [h1]

/-- Witness for C4: areas `[1, 4]` give font sizes 12 and 6 at the extremes,
ordered and within bounds. -/
theorem fontSize_monotone_bounded_witness :
    (∃ fa fb, fontSize 4 1 4 = some fa ∧ fontSize 1 1 4 = some fb ∧
      fb ≤ fa) ∧
    (∀ c ∈ ([1, 4] : List ℚ), ∃ fc, fontSize c 1 4 = some fc ∧
      6 ≤ fc ∧ fc ≤ 12) := by
  refine fontSize_monotone_bounded [1, 4] 1 4 4 1 ?_ ?_ (by norm_num)
    (by norm_num) (by norm_num) (by norm_num)
  · rw [List.minimum_eq_coe_iff]
    refine ⟨by norm_num, ?_⟩
    intro y hy
    rcases List.mem_cons.1 hy with h | h
    · exact le_of_eq h.symm
    · simp only [List.mem_singleton] at h
      rw [h]; norm_num
  · rw [List.maximum_eq_coe_iff]
    refine ⟨by norm_num, ?_⟩
    intro y hy
    rcases List.mem_cons.1 hy with h | h
    · rw [h]; norm_num
    · simp only [List.mem_singleton] at h
      exact le_of_eq h

/-- A triangle-shaped demo geometry whose centroid `(4/3, 4/3)` differs from
its bounding-box center `(2, 2)`. -/
def triDemo : List Point := [(0, 0), (4, 0), (0, 4)]

/-- Sums after an affine reindexing of a list of rationals. -/
lemma sum_map_affine (l : List ℚ) (a b : ℚ) :
    (l.map (fun v => a * v + b)).sum = a * l.sum + b * l.length := by
  induction l with
  | nil => simp
  | cons hd tl ih =>
    simp only [List.map_cons, List.sum_cons, List.length_cons, ih]
    push_cast
    ring

/-- The centroid commutes with coordinatewise affine maps (on a nonempty
geometry). -/
lemma centroid_map_affine (g : List Point) (hg : g ≠ []) (a₁ b₁ a₂ b₂ : ℚ) :
    centroid (g.map (fun p => (a₁ * p.1 + b₁, a₂ * p.2 + b₂)))
      = (a₁ * (centroid g).1 + b₁, a₂ * (centroid g).2 + b₂) := by
  have hn : (g.length : ℚ) ≠ 0 :=
    Nat.cast_ne_zero.mpr (List.length_pos.2 hg).ne'
  unfold centroid
  simp only [List.map_map, List.length_map]
  have h1 : (g.map (Prod.fst ∘ fun p => (a₁ * p.1 + b₁, a₂ * p.2 + b₂))).sum
      = a₁ * (g.map Prod.fst).sum + b₁ * g.length := by
    have : (Prod.fst ∘ fun p : Point => (a₁ * p.1 + b₁, a₂ * p.2 + b₂))
        = (fun v => a₁ * v + b₁) ∘ Prod.fst := rfl
    rw [this, ← List.map_map, sum_map_affine, List.length_map]
  have h2 : (g.map (Prod.snd ∘ fun p => (a₁ * p.1 + b₁, a₂ * p.2 + b₂))).sum
      = a₂ * (g.map Prod.snd).sum + b₂ * g.length := by
    have : (Prod.snd ∘ fun p : Point => (a₁ * p.1 + b₁, a₂ * p.2 + b₂))
        = (fun v => a₂ * v + b₂) ∘ Prod.snd := rfl
    rw [this, ← List.map_map, sum_map_affine, List.length_map]
  rw [h1, h2, Prod.ext_iff]
  refine ⟨?_, ?_⟩ <;> field_simp <;> ring

/-- **C2 (counterexample).** The claim says the inset territory's centroid
lands exactly on the anchor point.  For the triangle `triDemo`, scale `1/2`
and anchor `(0, 0)`, the transformed centroid is `(1/3, 1/3) ≠ (0, 0)`:
the code scales about the bounding-box center (`origin='center'`) but
translates by `anchor - original centroid`. -/
theorem insetTransform_centroid_counterexample :
    centroid (insetTransform triDemo (1 / 2) 0 0) ≠ (0, 0) := by
  norm_num [centroid, insetTransform, translateGeom, scaleGeom, bboxCenter,
    minX, maxX, minY, maxY, triDemo, Prod.ext_iff]

/-- **C2 (amended).** The inset geometry is uniformly scaled about the
CENTER OF ITS BOUNDING BOX, then translated by `anchor - original centroid`;
hence the transformed centroid lands on
`anchor + (1 - s) * (bbox_center - centroid)`, which is the anchor exactly
when the centroid coincides with the bounding-box center or `s = 1`. -/
theorem insetTransform_centroid_offset (g : List Point) (hg : g ≠ [])
    (s x y : ℚ) :
    centroid (insetTransform g s x y)
      = (x + (1 - s) * ((bboxCenter g).1 - (centroid g).1),
         y + (1 - s) * ((bboxCenter g).2 - (centroid g).2)) := by
  have key : insetTransform g s x y
      = g.map (fun p =>
          (s * p.1 + ((1 - s) * (bboxCenter g).1 + x - (centroid g).1),
           s * p.2 + ((1 - s) * (bboxCenter g).2 + y - (centroid g).2))) := by
    unfold insetTransform translateGeom scaleGeom
    rw [List.map_map]
    apply List.map_congr_left
    intro p _
    simp only [Function.comp, Prod.ext_iff]
    constructor <;> ring
  rw [key, centroid_map_affine g hg, Prod.ext_iff]
  constructor <;> (dsimp only; ring)

/-- Witness for the amended C2: on `triDemo` with scale `1/2` and anchor
`(0, 0)` the transformed centroid is exactly the predicted offset point
`(1/3, 1/3)`. -/
theorem insetTransform_centroid_offset_witness :
    centroid (insetTransform triDemo (1 / 2) 0 0) = (1 / 3, 1 / 3) := by
  have h := insetTransform_centroid_offset triDemo (by simp [triDemo]) (1 / 2) 0 0
  rw [h]
  norm_num [bboxCenter, centroid, minX, maxX, minY, maxY, triDemo, Prod.ext_iff]

/-- Key presence read through `lookup` agrees with the `any`-scan Python's
`k in dict` performs. -/
lemma lookup_isSome_eq_any (fs : List (String × JValue)) (k : String) :
    (fs.lookup k).isSome = fs.any (fun f => f.1 == k) := by
  induction fs with
  | nil => rfl
  | cons hd tl ih =>
    obtain ⟨a, b⟩ := hd
    simp only [List.lookup, List.any_cons]
    by_cases h : k = a
    · subst h; simp
    · have h1 : (k == a) = false := by simpa using h
      have h2 : (a == k) = false := by simpa using Ne.symm h
      simp [h1, h2, ih]

/-- On a region object, the validation of `import_regions` fails exactly on
the claim's malformed regions, and every message it raises embeds the
region's name. -/
lemma regionError_obj_spec (n : String) (fs : List (String × JValue)) :
    (regionError n (jobj fs) = none ↔ badRegionSpec (jobj fs) = false) ∧
    (∀ m, regionError n (jobj fs) = some m → ∃ p q, m = p ++ n ++ q) := by
  have hmem : ∀ k, hasMember k (jobj fs) = some (fs.any (fun f => f.1 == k)) :=
    fun k => rfl
  simp only [regionError, requiredFields, List.mapM_cons, List.mapM_nil, hmem,
    Option.bind_some, Option.some_bind, Option.pure_def, badRegionSpec,
    getItem, List.all_cons, List.all_nil]
  rcases h1 : fs.any (fun f => f.1 == "territories") with _ | _ <;>
    rcases h2 : fs.any (fun f => f.1 == "color") with _ | _ <;>
      rcases h3 : fs.any (fun f => f.1 == "sales_rep") with _ | _ <;>
        rcases h4 : fs.any (fun f => f.1 == "sales_number") with _ | _ <;>
          simp only [Bool.and_true, Bool.and_false, Bool.false_and,
            Bool.true_and, Bool.not_false, Bool.not_true, if_true, if_false,
            lookup_isSome_eq_any, h1, h2, h3, h4, Option.isSome_some,
            Option.isSome_none, Bool.true_or, Bool.false_or, Bool.or_true,
            Bool.or_false, ite_true, ite_false] <;>
          try exact ⟨by simp, fun m hm => ⟨"Region ",
            " is missing required fields", by simpa using hm.symm⟩⟩
  -- all four fields present
  have hts : ∃ v, fs.lookup "territories" = some v := by
    have := lookup_isSome_eq_any fs "territories"
    rw [h1] at this
    exact Option.isSome_iff_exists.1 this
  have hsn : ∃ v, fs.lookup "sales_number" = some v := by
    have := lookup_isSome_eq_any fs "sales_number"
    rw [h4] at this
    exact Option.isSome_iff_exists.1 this
  obtain ⟨tv, htv⟩ := hts
  obtain ⟨sv, hsv⟩ := hsn
  rw [htv, hsv]
  rcases tv with _ | _ | _ | _ | _ | xs | _ <;>
    simp only [Bool.not_true, Bool.not_false, Bool.false_or, Bool.true_or,
      Bool.or_false, Bool.or_true] <;>
    try exact ⟨by simp, fun m hm => ⟨"Region ",
      " territories must be a list", by simpa using hm.symm⟩⟩
  -- territories is a list
  rcases hsi : isIntInstance sv with _ | _
  · refine ⟨by simp [hsi], fun m hm => ⟨"Region ",
      " sales number must be an integer", ?_⟩⟩
    rw [if_neg (by simp [hsi])] at hm
    simpa using hm.symm
  · exact ⟨by simp [hsi], fun m hm => by
      rw [if_pos (by simp [hsi])] at hm
      exact absurd hm (by simp)⟩

/-- With every region passing validation, the parsed document replaces the
whole registry and no error is reported. -/
lemma importRegions_of_all_valid (cur : Registry) (doc : Registry)
    (hnone : ∀ e ∈ doc, regionError e.1 e.2 = none) :
    importRegions cur doc = (doc, none) := by
  have : doc.findSome? (fun e => regionError e.1 e.2) = none :=
    List.findSome?_eq_none_iff.2 hnone
  simp [importRegions, this]

/-- **C5.** Importing a document (of region objects) in which some region is
malformed — missing one of the four required fields, non-list
`'territories'`, or non-integer `'sales_number'` — leaves the registry
completely unchanged and reports an error message embedding a malformed
region's name; a document whose regions all validate replaces the whole
registry. -/
theorem importRegions_atomic (cur : Registry) (doc : Registry)
    (hobj : ∀ e ∈ doc, isObj e.2 = true) :
    ((∃ e ∈ doc, badRegionSpec e.2 = true) →
      (importRegions cur doc).1 = cur ∧
      ∃ n d m, (n, d) ∈ doc ∧ regionError n d = some m ∧
        (importRegions cur doc).2 = some m ∧ ∃ p q, m = p ++ n ++ q) ∧
    ((∀ e ∈ doc, badRegionSpec e.2 = false) →
      importRegions cur doc = (doc, none)) := by
  constructor
  · rintro ⟨e, he, hbad⟩
    have hfind : ∃ m, doc.findSome? (fun e => regionError e.1 e.2) = some m := by
      rcases hf : doc.findSome? (fun e => regionError e.1 e.2) with _ | m
      · exfalso
        have hall := List.findSome?_eq_none_iff.1 hf e he
        obtain ⟨fs, hfs⟩ : ∃ fs, e.2 = jobj fs := by
          have := hobj e he
          cases h : e.2 <;> rw [h] at this <;> simp [isObj] at this
          exact ⟨_, rfl⟩
        rw [hfs] at hall hbad
        rw [(regionError_obj_spec e.1 fs).1.1 hall] at hbad
        exact Bool.false_ne_true hbad
      · exact ⟨m, hf⟩
    obtain ⟨m, hm⟩ := hfind
    obtain ⟨a, ha, hra⟩ := List.exists_of_findSome?_eq_some hm
    obtain ⟨fs, hfs⟩ : ∃ fs, a.2 = jobj fs := by
      have := hobj a ha
      cases h : a.2 <;> rw [h] at this <;> simp [isObj] at this
      exact ⟨_, rfl⟩
    refine ⟨by simp [importRegions, hm], a.1, a.2, m, ha, hra, ?_, ?_⟩
    · simp [importRegions, hm]
    · exact (regionError_obj_spec a.1 fs).2 m (by rw [← hfs]; exact hra)
  · intro hgood
    apply importRegions_of_all_valid
    intro e he
    obtain ⟨fs, hfs⟩ : ∃ fs, e.2 = jobj fs := by
      have := hobj e he
      cases h : e.2 <;> rw [h] at this <;> simp [isObj] at this
      exact ⟨_, rfl⟩
    rw [hfs]
    exact (regionError_obj_spec e.1 fs).1.2 (by rw [← hfs]; exact hgood e he)

/-- Witness for C5: importing `demoBadDoc` (its region `"East"` lacks
`sales_number`) into `demoRegistry` leaves it unchanged and names `"East"`;
importing the fully valid `demoRegistry` document into an empty registry
installs the whole document. -/
theorem importRegions_atomic_witness :
    (importRegions demoRegistry demoBadDoc).1 = demoRegistry ∧
    (importRegions demoRegistry demoBadDoc).2
      = some "Region East is missing required fields" ∧
    importRegions [] demoRegistry = (demoRegistry, none) := by
  have h1 := (importRegions_atomic demoRegistry demoBadDoc (by decide)).1
    (by decide)
  have h2 := (importRegions_atomic [] demoRegistry (by decide)).2 (by decide)
  exact ⟨h1.1, rfl, h2⟩

/-- The claim's well-formedness of an exported region: all four fields
present, `'territories'` a list, `'sales_number'` an integer. -/
def goodRegion (d : JValue) : Bool :=
  (match getItem d "territories" with
   | some (jlist _) => true
   | _ => false) &&
  (getItem d "color").isSome &&
  (getItem d "sales_rep").isSome &&
  (match getItem d "sales_number" with
   | some (jint _) => true
   | _ => false)

/-- A good region is an object that passes every import check. -/
lemma goodRegion_valid (d : JValue) (h : goodRegion d = true) :
    isObj d = true ∧ badRegionSpec d = false := by
  rcases d with _ | _ | _ | _ | _ | _ | fs <;>
    simp [goodRegion, getItem] at h
  refine ⟨rfl, ?_⟩
  obtain ⟨⟨⟨h1, h2⟩, h3⟩, h4⟩ := h
  rcases ht : fs.lookup "territories" with _ | tv <;> rw [ht] at h1
  · simp at h1
  rcases hs : fs.lookup "sales_number" with _ | sv <;> rw [hs] at h4
  · simp at h4
  rcases tv with _ | _ | _ | _ | _ | xs | _ <;> simp at h1
  rcases sv with _ | _ | sn | _ | _ | _ | _ <;> simp at h4
  simp [badRegionSpec, getItem, requiredFields, ht, hs, h2, h3, isIntInstance]

/-- **C6.** Exporting a registry whose regions all carry the four required
fields (with a list `'territories'` and an integer `'sales_number'`) and
importing the written JSON back succeeds and reproduces the registry
unchanged. -/
theorem exportImport_roundTrip (reg : Registry)
    (h : ∀ e ∈ reg, goodRegion e.2 = true) :
    importRegionsJson reg (exportRegions reg) = (reg, none) := by
  have hnone : ∀ e ∈ reg, regionError e.1 e.2 = none := by
    intro e he
    obtain ⟨h1, h2⟩ := goodRegion_valid e.2 (h e he)
    obtain ⟨fs, hfs⟩ : ∃ fs, e.2 = jobj fs := by
      cases hv : e.2 <;> rw [hv] at h1 <;> simp [isObj] at h1
      exact ⟨_, rfl⟩
    rw [hfs]
    exact (regionError_obj_spec e.1 fs).1.2 (by rw [← hfs]; exact h2)
  have := importRegions_of_all_valid reg reg hnone
  simpa [importRegionsJson, exportRegions] using this

/-- Witness for C6: the round trip on `demoRegistry`. -/
theorem exportImport_roundTrip_witness :
    importRegionsJson demoRegistry (exportRegions demoRegistry)
      = (demoRegistry, none) :=
  exportImport_roundTrip demoRegistry (by decide)

/-! ## The `/import-regions` endpoint of `app.py` (lines 101-182)

The endpoint's validation of the parsed upload: `validate_email` and
`validate_phone` (app.py lines 14-21), the per-person and per-region field
checks, the hex-color regex, and the `salesPersonId` reference check.
Errors carry the HTTP status: 400 for the explicit `jsonify(...), 400`
return branches, 500 for exceptions caught by the outer handler. -/

/-- `required_fields` for a sales person. -/
def personFields : List String :=
  ["id", "firstName", "lastName", "email", "phone"]

/-- Python's `\s` on the characters that can appear here: ASCII whitespace
including vertical tab and form feed (exotic Unicode whitespace, which
Python's `\s` also matches, is approximated by `Char.isWhitespace`). -/
def isSpacey (c : Char) : Bool :=
  c.isWhitespace || c == '\x0b' || c == '\x0c'

/-- In an `re` pattern, `$` also matches just before one trailing newline,
so `re.match(r'^...$', s)` accepts `s` with a single final `'\n'`. -/
def stripTrailingNewline (cs : List Char) : List Char :=
  if cs.getLast? == some '\n' then cs.dropLast else cs

/-- Split a character list at every occurrence of `c`. -/
def splitChar (c : Char) : List Char → List (List Char)
  | [] => [[]]
  | x :: xs =>
    let r := splitChar c xs
    if x == c then [] :: r
    else
      match r with
      | [] => [[x]]
      | h :: t => (x :: h) :: t

/-- Matching `^[^\s@]+@[^\s@]+\.[^\s@]+$` (after the `$`-newline strip):
no whitespace anywhere, exactly one `'@'` with a nonempty part before it,
and after it a `'.'` that has at least one character on each side. -/
def emailChars (cs : List Char) : Bool :=
  cs.all (fun c => !isSpacey c) &&
  (match splitChar '@' cs with
   | [a, b] => !a.isEmpty && ((b.drop 1).dropLast.contains '.')
   | _ => false)

/-- `validate_email` (app.py lines 14-16). -/
def validEmail (s : String) : Bool :=
  emailChars (stripTrailingNewline (chars s))

/-- `validate_phone` (app.py lines 18-21): strip non-digits (`re.sub`),
then require 9 to 15 digits. -/
def validPhone (s : String) : Bool :=
  let ds := (chars s).filter Char.isDigit
  decide (9 ≤ ds.length) && decide (ds.length ≤ 15)

/-- The character class `[0-9A-Fa-f]`. -/
def isHexDigitChar (c : Char) : Bool :=
  ('0' ≤ c && c ≤ '9') || ('A' ≤ c && c ≤ 'F') || ('a' ≤ c && c ≤ 'f')

/-- `re.match(r'^#[0-9A-Fa-f]{6}$', color)` (with the `$`-newline strip). -/
def validColor (s : String) : Bool :=
  match stripTrailingNewline (chars s) with
  | '#' :: rest => rest.length == 6 && rest.all isHexDigitChar
  | _ => false

/-- `str()` rendering used by the f-string error messages.  Only the person
name interpolations use it, and only its value on strings matters to any
claim; the other arms are schematic. -/
def pyStr : JValue → String
  | jstr s => s
  | jint n => toString n
  | jbool true => "True"
  | jbool false => "False"
  | jnull => "None"
  | jfloat _ => "float"
  | jlist _ => "list"
  | jobj _ => "dict"

/-- `f"... {person['firstName']} {person['lastName']}"` (fields are present
whenever a message is built). -/
def personName (p : JValue) : String :=
  pyStr ((getItem p "firstName").getD jnull) ++ " "
    ++ pyStr ((getItem p "lastName").getD jnull)

/-- Python hashability of the JSON scalars: lists and dicts are unhashable
(a set containing one, or a set-membership test on one, raises `TypeError`). -/
def hashable : JValue → Bool
  | jlist _ => false
  | jobj _ => false
  | _ => true

/-- Python `==` on the hashable JSON scalars: `bool`/`int`/`float` compare
numerically across types (`True == 1`, `1 == 1.0`), strings only with
strings, `None` only with `None`. -/
def pyEqScalar (a b : JValue) : Bool :=
  match a, b with
  | jint x, jint y => x == y
  | jbool x, jbool y => x == y
  | jstr x, jstr y => x == y
  | jnull, jnull => true
  | jfloat x, jfloat y => x == y
  | jint x, jfloat y => ((x : ℚ) == y)
  | jfloat x, jint y => (x == (y : ℚ))
  | jbool x, jint y => ((if x then 1 else 0 : Int) == y)
  | jint x, jbool y => (x == (if y then 1 else 0 : Int))
  | jbool x, jfloat y => ((if x then 1 else 0 : ℚ) == y)
  | jfloat x, jbool y => (x == (if y then 1 else 0 : ℚ))
  | _, _ => false

/-- The per-person validation block (app.py lines 125-141), in source
order: the five `field in person` checks, `person['email']` with the email
regex, `person['phone']` with the digit count. -/
def checkPerson (p : JValue) : Except (Nat × String) Unit :=
  match personFields.mapM (fun f => hasMember f p) with
  | none => .error (500, "argument of type is not iterable")
  | some bs =>
    if !bs.all (fun b => b) then
      .error (400, "Missing required fields in sales person data")
    else
      match getItem p "email" with
      | some (jstr e) =>
        if !validEmail e then
          .error (400, "Invalid email format for " ++ personName p)
        else
          match getItem p "phone" with
          | some (jstr ph) =>
            if !validPhone ph then
              .error (400, "Invalid phone format for " ++ personName p)
            else .ok ()
          | some _ => .error (500, "expected string or bytes-like object")
          | none => .error (500, "string indices must be integers")
      | some _ => .error (500, "expected string or bytes-like object")
      | none => .error (500, "string indices must be integers")

/-- `for person in data['salesPeople']`, stopping at the first failure. -/
def checkPeople : List JValue → Except (Nat × String) Unit
  | [] => .ok ()
  | p :: ps =>
    match checkPerson p with
    | .error e => .error e
    | .ok _ => checkPeople ps

/-- The subscripts `person['id']` taken by the set comprehension, in order;
`none` as soon as one raises. -/
def collectIds : List JValue → Option (List JValue)
  | [] => some []
  | p :: ps =>
    match getItem p "id", collectIds ps with
    | some v, some vs => some (v :: vs)
    | _, _ => none

/-- `sales_person_ids = {person['id'] for person in data['salesPeople']}`:
subscripting a non-object raises, and an unhashable id makes the set
construction raise.  (The comprehension interleaves subscripting and
hashing; collecting first and hashing second raises on exactly the same
documents, only the pick among several 500-class errors can differ.) -/
def buildIds (sp : List JValue) : Except (Nat × String) (List JValue) :=
  match collectIds sp with
  | none => .error (500, "string indices must be integers")
  | some ids =>
    if ids.all hashable then .ok ids
    else .error (500, "unhashable type")

/-- The per-region validation block (app.py lines 149-172), in source
order: the three `field in region_data` checks, `territories` must be a
list, `color` must match the hex regex, `salesPersonId` must be in the id
set (an unhashable id raises at the set-membership test). -/
def checkRegion (ids : List JValue) (name : String) (r : JValue) :
    Except (Nat × String) Unit :=
  match ["territories", "color", "salesPersonId"].mapM (fun f => hasMember f r) with
  | none => .error (500, "argument of type is not iterable")
  | some bs =>
    if !bs.all (fun b => b) then
      .error (400, "Missing required fields in region " ++ name)
    else
      match getItem r "territories" with
      | some (jlist _) =>
        match getItem r "color" with
        | some (jstr c) =>
          if !validColor c then
            .error (400, "Invalid color format for region " ++ name)
          else
            match getItem r "salesPersonId" with
            | some sid =>
              if !hashable sid then .error (500, "unhashable type")
              else if !(ids.any (fun i => pyEqScalar sid i)) then
                .error (400, "Referenced sales person ID not found for region "
                  ++ name)
              else .ok ()
            | none => .error (500, "KeyError")
        | some _ => .error (500, "expected string or bytes-like object")
        | none => .error (500, "string indices must be integers")
      | some _ => .error (400, "Invalid territories data for region " ++ name)
      | none => .error (500, "string indices must be integers")

/-- `for region_name, region_data in data['regions'].items()`. -/
def checkRegions (ids : List JValue) :
    List (String × JValue) → Except (Nat × String) Unit
  | [] => .ok ()
  | (n, r) :: rest =>
    match checkRegion ids n r with
    | .error e => .error e
    | .ok _ => checkRegions ids rest

/-- `data.get(k)`: `none` models the `AttributeError` on a non-dict. -/
def pyGet (v : JValue) (k : String) : Option (Option JValue) :=
  match v with
  | jobj fs => some (fs.lookup k)
  | _ => none

/-- The whole `/import-regions` validation on the parsed upload `data`
(app.py lines 121-179): `salesPeople` must be a list, its entries validate,
`regions` must be a dict, the id set is built, its entries validate; on
success the endpoint echoes the parsed `salesPeople` and `regions` values. -/
def validateImport (data : JValue) : Except (Nat × String) (JValue × JValue) :=
  match pyGet data "salesPeople" with
  | none => .error (500, "object has no attribute get")
  | some spOpt =>
    match spOpt with
    | some (jlist sp) =>
      (match checkPeople sp with
       | .error e => .error e
       | .ok _ =>
         match pyGet data "regions" with
         | none => .error (500, "object has no attribute get")
         | some rgOpt =>
           match rgOpt with
           | some (jobj rg) =>
             (match buildIds sp with
              | .error e => .error e
              | .ok ids =>
                match checkRegions ids rg with
                | .error e => .error e
                | .ok _ => .ok (jlist sp, jobj rg))
           | _ => .error (400, "Invalid regions data format"))
    | _ => .error (400, "Invalid sales people data format")

/-- The ids the claim speaks of: each person's `'id'` value. -/
def idsOf (sp : List JValue) : List JValue :=
  sp.filterMap (fun p => getItem p "id")

/-- The claim's validity condition for one sales person: an object carrying
the five required fields, with an email matching the email regex and a
phone with an acceptable digit count. -/
def personValid (p : JValue) : Bool :=
  isObj p &&
  personFields.all (fun f => (getItem p f).isSome) &&
  (match getItem p "email" with
   | some (jstr e) => validEmail e
   | _ => false) &&
  (match getItem p "phone" with
   | some (jstr ph) => validPhone ph
   | _ => false)

/-- The claim's validity condition for one region: an object with a list
`'territories'`, a `'color'` matching `^#[0-9A-Fa-f]{6}$`, and a
`'salesPersonId'` equal to some sales person's id. -/
def regionValid (ids : List JValue) (r : JValue) : Bool :=
  isObj r &&
  (match getItem r "territories" with
   | some (jlist _) => true
   | _ => false) &&
  (match getItem r "color" with
   | some (jstr c) => validColor c
   | _ => false) &&
  (match getItem r "salesPersonId" with
   | some sid => ids.any (fun i => pyEqScalar sid i)
   | none => false)

/-- The claim's success condition on the whole document. -/
def docValid (data : JValue) : Bool :=
  match getItem data "salesPeople", getItem data "regions" with
  | some (jlist sp), some (jobj rg) =>
    sp.all personValid && rg.all (fun e => regionValid (idsOf sp) e.2)
  | _, _ => false

/-- The per-person validation succeeds exactly on the claim's valid
persons. -/
lemma checkPerson_ok_iff (p : JValue) :
    checkPerson p = .ok () ↔ personValid p = true := by
  rcases p with _ | b | n | q | s | xs | fs
  case jnull =>
    have hm : personFields.mapM (fun f => hasMember f jnull) = none := rfl
    simp only [checkPerson]
    rw [hm]
    simp [personValid, isObj]
  case jbool =>
    have hm : personFields.mapM (fun f => hasMember f (jbool b)) = none := rfl
    simp only [checkPerson]
    rw [hm]
    simp [personValid, isObj]
  case jint =>
    have hm : personFields.mapM (fun f => hasMember f (jint n)) = none := rfl
    simp only [checkPerson]
    rw [hm]
    simp [personValid, isObj]
  case jfloat =>
    have hm : personFields.mapM (fun f => hasMember f (jfloat q)) = none := rfl
    simp only [checkPerson]
    rw [hm]
    simp [personValid, isObj]
  case jstr =>
    have hm : personFields.mapM (fun f => hasMember f (jstr s))
        = some ([strContains s "id", strContains s "firstName",
                 strContains s "lastName", strContains s "email",
                 strContains s "phone"]) := rfl
    constructor
    · intro h
      simp only [checkPerson] at h
      rw [hm] at h
      rw [show getItem (jstr s) "email" = none from rfl] at h
      split at h <;> try split at h
      all_goals simp_all
    · intro h
      simp [personValid, isObj] at h
  case jlist =>
    have hm : personFields.mapM (fun f => hasMember f (jlist xs))
        = some ([listHasStr "id" xs, listHasStr "firstName" xs,
                 listHasStr "lastName" xs, listHasStr "email" xs,
                 listHasStr "phone" xs]) := rfl
    constructor
    · intro h
      simp only [checkPerson] at h
      rw [hm] at h
      rw [show getItem (jlist xs) "email" = none from rfl] at h
      split at h <;> try split at h
      all_goals simp_all
    · intro h
      simp [personValid, isObj] at h
  case jobj =>
    have hm : personFields.mapM (fun f => hasMember f (jobj fs))
        = some ([fs.any (fun f => f.1 == "id"),
                 fs.any (fun f => f.1 == "firstName"),
                 fs.any (fun f => f.1 == "lastName"),
                 fs.any (fun f => f.1 == "email"),
                 fs.any (fun f => f.1 == "phone")]) := rfl
    simp only [checkPerson, personValid, isObj, getItem]
    rw [hm]
    simp only [personFields, List.all_cons, List.all_nil, lookup_isSome_eq_any,
      Bool.true_and, Bool.and_true]
    rcases h1 : fs.any (fun f => f.1 == "id") with _ | _ <;>
      rcases h2 : fs.any (fun f => f.1 == "firstName") with _ | _ <;>
        rcases h3 : fs.any (fun f => f.1 == "lastName") with _ | _ <;>
          rcases h4 : fs.any (fun f => f.1 == "email") with _ | _ <;>
            rcases h5 : fs.any (fun f => f.1 == "phone") with _ | _ <;>
              simp only [Bool.and_true, Bool.and_false, Bool.false_and,
                Bool.true_and, Bool.not_false, Bool.not_true, if_true, if_false,
                ite_true, ite_false] <;>
              try simp
    -- all five fields present
    have hem : ∃ v, fs.lookup "email" = some v := by
      have := lookup_isSome_eq_any fs "email"
      rw [h4] at this
      exact Option.isSome_iff_exists.1 this
    have hph : ∃ v, fs.lookup "phone" = some v := by
      have := lookup_isSome_eq_any fs "phone"
      rw [h5] at this
      exact Option.isSome_iff_exists.1 this
    obtain ⟨ev, hev⟩ := hem
    obtain ⟨pv, hpv⟩ := hph
    rw [hev, hpv]
    rcases ev with _ | _ | _ | _ | es | _ | _
    · simp
    · simp
    · simp
    · simp
    · -- email is a string
      rcases hve : validEmail es with _ | _
      · simp [hve]
      · simp only [hve, Bool.not_true, if_false, ite_false, Bool.true_and]
        rcases pv with _ | _ | _ | _ | ps | _ | _
        · simp
        · simp
        · simp
        · simp
        · rcases hvp : validPhone ps with _ | _
          · simp [hvp]
          · simp [hvp]
        · simp
        · simp
    · simp
    · simp

/-- The person loop succeeds exactly when every person is valid. -/
lemma checkPeople_ok_iff (sp : List JValue) :
    checkPeople sp = .ok () ↔ sp.all personValid = true := by
  induction sp with
  | nil => simp [checkPeople]
  | cons p ps ih =>
    have hsplit : checkPeople (p :: ps)
        = match checkPerson p with
          | .error e => .error e
          | .ok _ => checkPeople ps := rfl
    rw [hsplit]
    constructor
    · intro h
      split at h
      · exact absurd h (by simp)
      · rename_i u heq
        cases u
        simp only [List.all_cons, Bool.and_eq_true]
        exact ⟨(checkPerson_ok_iff p).1 heq, ih.1 h⟩
    · intro h
      simp only [List.all_cons, Bool.and_eq_true] at h
      rw [(checkPerson_ok_iff p).2 h.1]
      exact ih.2 h.2

/-- A valid person carries an `'id'` value. -/
lemma personValid_id_isSome (p : JValue) (h : personValid p = true) :
    ∃ v, getItem p "id" = some v := by
  simp only [personValid, Bool.and_eq_true] at h
  have hfields := h.1.1.2
  have := List.all_eq_true.1 hfields "id" (by simp [personFields])
  exact Option.isSome_iff_exists.1 (by simpa using this)

/-- When every person validates and every id is hashable, the id set is
exactly the ids of the document's people. -/
lemma buildIds_ok (sp : List JValue)
    (hval : ∀ p ∈ sp, personValid p = true)
    (hhash : ∀ p ∈ sp, ∀ v, getItem p "id" = some v → hashable v = true) :
    buildIds sp = .ok (idsOf sp) ∧ ∀ i ∈ idsOf sp, hashable i = true := by
  have hmap : collectIds sp = some (idsOf sp) ∧
      ∀ i ∈ idsOf sp, hashable i = true := by
    induction sp with
    | nil => exact ⟨rfl, by simp [idsOf]⟩
    | cons p ps ihp =>
      obtain ⟨v, hv⟩ := personValid_id_isSome p (hval p (by simp))
      obtain ⟨ih1, ih2⟩ := ihp (fun q hq => hval q (by simp [hq]))
        (fun q hq => hhash q (by simp [hq]))
      have hcol : collectIds (p :: ps) = some (v :: idsOf ps) := by
        have : collectIds (p :: ps)
            = match getItem p "id", collectIds ps with
              | some w, some vs => some (w :: vs)
              | _, _ => none := rfl
        rw [this, hv, ih1]
      have hide : idsOf (p :: ps) = v :: idsOf ps := by
        simp [idsOf, hv]
      refine ⟨by rw [hcol, hide], ?_⟩
      rw [hide]
      intro i hi
      rcases List.mem_cons.1 hi with hi | hi
      · exact hhash p (by simp) i (hi ▸ hv)
      · exact ih2 i hi
  refine ⟨?_, hmap.2⟩
  have : buildIds sp
      = match collectIds sp with
        | none => .error (500, "string indices must be integers")
        | some ids =>
          if ids.all hashable then .ok ids
          else .error (500, "unhashable type") := rfl
  rw [this, hmap.1]
  simp [List.all_eq_true.2 hmap.2]

/-- An unhashable value never equals a hashable one under Python `==`. -/
lemma pyEqScalar_of_unhashable (sid i : JValue) (hs : hashable sid = false)
    (hi : hashable i = true) : pyEqScalar sid i = false := by
  cases sid <;> simp [hashable] at hs <;> cases i <;> simp [hashable] at hi <;> rfl

/-- A key that the `any`-scan misses has no binding. -/
lemma lookup_eq_none_of_any_false (fs : List (String × JValue)) (k : String)
    (h : fs.any (fun f => f.1 == k) = false) : fs.lookup k = none := by
  have hs := lookup_isSome_eq_any fs k
  rw [h] at hs
  exact Option.not_isSome_iff_eq_none.1 (by simp [hs])

/-- The per-region validation succeeds exactly on the claim's valid regions,
provided the id set holds hashable values (as built from validated people). -/
lemma checkRegion_ok_iff (ids : List JValue) (hh : ∀ i ∈ ids, hashable i = true)
    (n : String) (r : JValue) :
    checkRegion ids n r = .ok () ↔ regionValid ids r = true := by
  rcases r with _ | b | m | q | s | xs | fs
  case jnull =>
    have hm : (["territories", "color", "salesPersonId"].mapM
        (fun f => hasMember f jnull)) = none := rfl
    simp only [checkRegion]
    rw [hm]
    simp [regionValid, isObj]
  case jbool =>
    have hm : (["territories", "color", "salesPersonId"].mapM
        (fun f => hasMember f (jbool b))) = none := rfl
    simp only [checkRegion]
    rw [hm]
    simp [regionValid, isObj]
  case jint =>
    have hm : (["territories", "color", "salesPersonId"].mapM
        (fun f => hasMember f (jint m))) = none := rfl
    simp only [checkRegion]
    rw [hm]
    simp [regionValid, isObj]
  case jfloat =>
    have hm : (["territories", "color", "salesPersonId"].mapM
        (fun f => hasMember f (jfloat q))) = none := rfl
    simp only [checkRegion]
    rw [hm]
    simp [regionValid, isObj]
  case jstr =>
    have hm : (["territories", "color", "salesPersonId"].mapM
        (fun f => hasMember f (jstr s)))
        = some ([strContains s "territories", strContains s "color",
                 strContains s "salesPersonId"]) := rfl
    constructor
    · intro h
      simp only [checkRegion] at h
      rw [hm] at h
      rw [show getItem (jstr s) "territories" = none from rfl] at h
      split at h <;> try split at h
      all_goals simp_all
    · intro h
      simp [regionValid, isObj] at h
  case jlist =>
    have hm : (["territories", "color", "salesPersonId"].mapM
        (fun f => hasMember f (jlist xs)))
        = some ([listHasStr "territories" xs, listHasStr "color" xs,
                 listHasStr "salesPersonId" xs]) := rfl
    constructor
    · intro h
      simp only [checkRegion] at h
      rw [hm] at h
      rw [show getItem (jlist xs) "territories" = none from rfl] at h
      split at h <;> try split at h
      all_goals simp_all
    · intro h
      simp [regionValid, isObj] at h
  case jobj =>
    have hm : (["territories", "color", "salesPersonId"].mapM
        (fun f => hasMember f (jobj fs)))
        = some ([fs.any (fun f => f.1 == "territories"),
                 fs.any (fun f => f.1 == "color"),
                 fs.any (fun f => f.1 == "salesPersonId")]) := rfl
    simp only [checkRegion, regionValid, isObj, getItem]
    rw [hm]
    simp only [List.all_cons, List.all_nil, lookup_isSome_eq_any,
      Bool.true_and, Bool.and_true]
    rcases h1 : fs.any (fun f => f.1 == "territories") with _ | _ <;>
      rcases h2 : fs.any (fun f => f.1 == "color") with _ | _ <;>
        rcases h3 : fs.any (fun f => f.1 == "salesPersonId") with _ | _ <;>
          simp only [Bool.and_true, Bool.and_false, Bool.false_and,
            Bool.true_and, Bool.not_false, Bool.not_true, if_true, if_false,
            ite_true, ite_false] <;>
          try simp [lookup_eq_none_of_any_false, h1, h2, h3]
    -- all three fields present
    obtain ⟨tv, htv⟩ : ∃ v, fs.lookup "territories" = some v := by
      have := lookup_isSome_eq_any fs "territories"
      rw [h1] at this
      exact Option.isSome_iff_exists.1 this
    obtain ⟨cv, hcv⟩ : ∃ v, fs.lookup "color" = some v := by
      have := lookup_isSome_eq_any fs "color"
      rw [h2] at this
      exact Option.isSome_iff_exists.1 this
    obtain ⟨sv, hsv⟩ : ∃ v, fs.lookup "salesPersonId" = some v := by
      have := lookup_isSome_eq_any fs "salesPersonId"
      rw [h3] at this
      exact Option.isSome_iff_exists.1 this
    rw [htv, hcv, hsv]
    rcases tv with _ | _ | _ | _ | _ | txs | _
    · simp
    · simp
    · simp
    · simp
    · simp
    · -- territories is a list
      rcases cv with _ | _ | _ | _ | c | _ | _
      · simp
      · simp
      · simp
      · simp
      · -- color is a string
        rcases hvc : validColor c with _ | _
        · simp [hvc]
        · simp only [hvc, Bool.not_true, if_false, ite_false, Bool.true_and]
          rcases hhs : hashable sv with _ | _
          · -- unhashable id: the membership test raises; no id can equal it
            have hany : (ids.any (fun i => pyEqScalar sv i)) = false := by
              rw [List.any_eq_false]
              intro i hi
              simp [pyEqScalar_of_unhashable sv i hhs (hh i hi)]
            simp [hany]
          · rcases hany : ids.any (fun i => pyEqScalar sv i) with _ | _ <;>
              simp [hany, hhs]
            · intro x hx
              have hfx := List.any_eq_false.1 hany x hx
              simpa using hfx
            · simpa using List.any_eq_true.1 hany
      · simp
      · simp
    · simp

/-- The region loop succeeds exactly when every region is valid. -/
lemma checkRegions_ok_iff (ids : List JValue)
    (hh : ∀ i ∈ ids, hashable i = true) (rg : List (String × JValue)) :
    checkRegions ids rg = .ok () ↔
      rg.all (fun e => regionValid ids e.2) = true := by
  induction rg with
  | nil => simp [checkRegions]
  | cons e rest ih =>
    obtain ⟨n, r⟩ := e
    have hsplit : checkRegions ids ((n, r) :: rest)
        = match checkRegion ids n r with
          | .error er => .error er
          | .ok _ => checkRegions ids rest := rfl
    rw [hsplit]
    constructor
    · intro h
      split at h
      · exact absurd h (by simp)
      · rename_i u heq
        cases u
        simp only [List.all_cons, Bool.and_eq_true]
        exact ⟨(checkRegion_ok_iff ids hh n r).1 heq, ih.1 h⟩
    · intro h
      simp only [List.all_cons, Bool.and_eq_true] at h
      rw [(checkRegion_ok_iff ids hh n r).2 h.1]
      exact ih.2 h.2

/-- On an object, the endpoint validation unfolds to the match below. -/
lemma validateImport_obj (fs : List (String × JValue)) :
    validateImport (jobj fs)
      = match fs.lookup "salesPeople" with
        | some (jlist sp) =>
          (match checkPeople sp with
           | .error e => .error e
           | .ok _ =>
             match fs.lookup "regions" with
             | some (jobj rg) =>
               (match buildIds sp with
                | .error e => .error e
                | .ok ids =>
                  match checkRegions ids rg with
                  | .error e => .error e
                  | .ok _ => .ok (jlist sp, jobj rg))
             | _ => .error (400, "Invalid regions data format"))
        | _ => .error (400, "Invalid sales people data format") := rfl

/-- On an object, the claim's success condition unfolds to the match below. -/
lemma docValid_obj (fs : List (String × JValue)) :
    docValid (jobj fs)
      = match fs.lookup "salesPeople", fs.lookup "regions" with
        | some (jlist sp), some (jobj rg) =>
          sp.all personValid && rg.all (fun e => regionValid (idsOf sp) e.2)
        | _, _ => false := rfl

/-- The spec's example import document, except that region `"East"` carries
the malformed color `"#ZZZZZZ"`. -/
def zzImportDoc : JValue :=
  jobj [("salesPeople", jlist [jobj [("id", jint 1), ("firstName", jstr "A"),
          ("lastName", jstr "B"), ("email", jstr "a@b.com"),
          ("phone", jstr "555-123-4567")]]),
        ("regions", jobj [("East", jobj [("territories", jlist [jstr "Virginia"]),
          ("color", jstr "#ZZZZZZ"), ("salesPersonId", jint 1)])])]

/-- The spec's example import document (valid). -/
def okImportDoc : JValue :=
  jobj [("salesPeople", jlist [jobj [("id", jint 1), ("firstName", jstr "A"),
          ("lastName", jstr "B"), ("email", jstr "a@b.com"),
          ("phone", jstr "555-123-4567")]]),
        ("regions", jobj [("East", jobj [("territories", jlist [jstr "Virginia"]),
          ("color", jstr "#FF0000"), ("salesPersonId", jint 1)])])]

/-- An import document whose single sales person (Alice Smith) lacks the
`'email'` field. -/
def noEmailDoc : JValue :=
  jobj [("salesPeople", jlist [jobj [("id", jint 1), ("firstName", jstr "Alice"),
          ("lastName", jstr "Smith"), ("phone", jstr "555-123-4567")]]),
        ("regions", jobj [])]

/-- **C7 (counterexample).** The claim says any violation yields a 400 error
message naming the offending person or region.  A person lacking a required
field is rejected with the fixed message
`'Missing required fields in sales person data'`, which does not name the
person: for `noEmailDoc` the message contains neither "Alice" nor "Smith". -/
theorem importEndpoint_counterexample :
    validateImport noEmailDoc
      = .error (400, "Missing required fields in sales person data") ∧
    strContains "Missing required fields in sales person data" "Alice" = false ∧
    strContains "Missing required fields in sales person data" "Smith" = false :=
  ⟨rfl, rfl, rfl⟩

/-- **C7 (amended).** For documents whose sales people carry hashable
(scalar) id values, the `/import-regions` validation succeeds — echoing the
parsed `salesPeople` and `regions` values unchanged — exactly when
`salesPeople` is a list whose entries all carry the five required fields
with a regex-matching email and an acceptable digit-count phone, and
`regions` is a mapping whose entries all carry a list `'territories'`, a
`'color'` matching `^#[0-9A-Fa-f]{6}$`, and a `'salesPersonId'` equal to
some sales person's id.  Failures of the per-entity checks that have an
entity in hand are 400s naming it — e.g. the color `"#ZZZZZZ"` is rejected
with a 400 naming region `"East"` — but the structural checks (missing
person fields, non-list `salesPeople`, non-mapping `regions`) use fixed
messages naming no entity, and checks applied to values of the wrong type
surface as 500s instead. -/
theorem importEndpoint_validation_spec (data : JValue)
    (hids : ∀ l, getItem data "salesPeople" = some (jlist l) →
      ∀ p ∈ l, ∀ v, getItem p "id" = some v → hashable v = true) :
    (∀ sp rg, validateImport data = .ok (sp, rg) ↔
      (docValid data = true ∧ getItem data "salesPeople" = some sp ∧
        getItem data "regions" = some rg)) ∧
    validateImport zzImportDoc
      = .error (400, "Invalid color format for region East") := by
  refine ⟨?_, rfl⟩
  intro sp rg
  rcases data with _ | b | m | q | s | xs | fs
  · simp [validateImport, pyGet, docValid, getItem]
  · simp [validateImport, pyGet, docValid, getItem]
  · simp [validateImport, pyGet, docValid, getItem]
  · simp [validateImport, pyGet, docValid, getItem]
  · simp [validateImport, pyGet, docValid, getItem]
  · simp [validateImport, pyGet, docValid, getItem]
  · rw [validateImport_obj, docValid_obj,
      show getItem (jobj fs) "salesPeople" = fs.lookup "salesPeople" from rfl,
      show getItem (jobj fs) "regions" = fs.lookup "regions" from rfl]
    rcases hsp : fs.lookup "salesPeople" with _ | spv
    · simp
    · rcases spv with _ | _ | _ | _ | _ | l | _
      · simp
      · simp
      · simp
      · simp
      · simp
      · -- salesPeople is a list
        rcases hcp : checkPeople l with e | u
        · -- some person fails
          have hnall : ¬(l.all personValid = true) := fun hall => by
            simpa using ((checkPeople_ok_iff l).2 hall).symm.trans hcp
          rcases hrg : fs.lookup "regions" with _ | rgv
          · simp [hcp]
          · rcases rgv <;> simp [hnall, hcp]
        · cases u
          simp only [hcp]
          have hall : ∀ p ∈ l, personValid p = true := by
            simpa using (checkPeople_ok_iff l).1 hcp
          rcases hrg : fs.lookup "regions" with _ | rgv
          · simp
          · rcases rgv with _ | _ | _ | _ | _ | _ | rgl
            · simp
            · simp
            · simp
            · simp
            · simp
            · simp
            · -- regions is a mapping
              have hhash : ∀ p ∈ l, ∀ v, getItem p "id" = some v →
                  hashable v = true :=
                hids l (by
                  rw [show getItem (jobj fs) "salesPeople"
                      = fs.lookup "salesPeople" from rfl, hsp])
              obtain ⟨hbi, hidsh⟩ := buildIds_ok l hall hhash
              rw [hbi]
              rcases hcr : checkRegions (idsOf l) rgl with e2 | u2
              · have hnallr : ¬(rgl.all (fun e => regionValid (idsOf l) e.2)
                    = true) := fun hr => by
                  simpa using
                    ((checkRegions_ok_iff (idsOf l) hidsh rgl).2 hr).symm.trans hcr
                simp [hnallr, List.all_eq_true.2 hall, hcr]
              · cases u2
                have hallr := (checkRegions_ok_iff (idsOf l) hidsh rgl).1 hcr
                simp [hallr, List.all_eq_true.2 hall, hcr]
      · simp

/-- Witness for the amended C7: the spec's example document (one valid
person, region `"East"` with color `"#FF0000"` referencing id 1) satisfies
the validity condition, so the endpoint succeeds and echoes both structures
unchanged. -/
theorem importEndpoint_validation_spec_witness :
    validateImport okImportDoc
      = .ok (jlist [jobj [("id", jint 1), ("firstName", jstr "A"),
          ("lastName", jstr "B"), ("email", jstr "a@b.com"),
          ("phone", jstr "555-123-4567")]],
        jobj [("East", jobj [("territories", jlist [jstr "Virginia"]),
          ("color", jstr "#FF0000"), ("salesPersonId", jint 1)])]) := by
  have h := (importEndpoint_validation_spec okImportDoc
    (by intro l hl p hp v hv
        simp only [okImportDoc, getItem] at hl
        rw [show (List.lookup "salesPeople"
            [("salesPeople", jlist [jobj [("id", jint 1),
              ("firstName", jstr "A"), ("lastName", jstr "B"),
              ("email", jstr "a@b.com"), ("phone", jstr "555-123-4567")]]),
             ("regions", jobj [("East", jobj [("territories",
              jlist [jstr "Virginia"]), ("color", jstr "#FF0000"),
              ("salesPersonId", jint 1)])])])
            = some (jlist [jobj [("id", jint 1), ("firstName", jstr "A"),
              ("lastName", jstr "B"), ("email", jstr "a@b.com"),
              ("phone", jstr "555-123-4567")]]) from rfl] at hl
        have hl' := (Option.some.injEq .. ▸ hl : _)
        cases hl'
        simp only [List.mem_singleton] at hp
        subst hp
        rw [show getItem (jobj [("id", jint 1), ("firstName", jstr "A"),
          ("lastName", jstr "B"), ("email", jstr "a@b.com"),
          ("phone", jstr "555-123-4567")]) "id" = some (jint 1) from rfl] at hv
        cases hv
        rfl)).1
  exact (h _ _).2 ⟨rfl, rfl, rfl⟩

end SalesMap
